import Mathlib

/-!
# MusicApp backend data-and-access-control model

A shallow embedding of the relational schema, row-level-security policies,
stored procedures and client mutation handlers of the MusicApp repository
(Supabase SQL setup scripts plus the Expo/React-Native screens), together
with theorems settling the specification claims about the messaging and
job-application subsystems.

Tables are embedded as Lean structures and lists of rows; SQL timestamps
become `Nat` ticks; UUIDs become opaque `Nat` identifiers; nullable columns
become `Option`; failing statements return `Except`, leaving the table value
unchanged.
-/

namespace MusicApp

/-- Opaque row identifier (`UUID` in the schema). -/
abbrev Uid := Nat

/-- Insertion step of the `ORDER BY` sort. -/
def insertSorted {α : Type} (le : α → α → Bool) (a : α) : List α → List α
  | [] => [a]
  | b :: bs => if le a b then a :: b :: bs else b :: insertSorted le a bs

/-- A SQL `ORDER BY`: a stable sort of the result rows by the given
comparison (insertion sort; SQL promises only sortedness). -/
def orderBy {α : Type} (le : α → α → Bool) : List α → List α
  | [] => []
  | a :: rest => insertSorted le a (orderBy le rest)

/-- A `user_profiles` row (supabase_auth_setup.sql, lines 2-12); only the
columns the verified claims touch are carried. -/
structure Profile where
  id : Uid
  email : String
  user_type : String
  display_name : String
  deriving Repr, DecidableEq

/-- A `messages` row (messaging setup script, lines 2-10). -/
structure Message where
  id : Uid
  sender_id : Uid
  receiver_id : Uid
  content : String
  is_read : Bool
  created_at : Nat
  deriving Repr, DecidableEq

/-- The slice of the store the two messaging procedures read. -/
structure Store where
  profiles : List Profile
  messages : List Message
  deriving Repr

/-- Output row type of `get_conversation` (messaging setup script, lines 46-55). -/
structure ConversationRow where
  id : Uid
  sender_id : Uid
  receiver_id : Uid
  content : String
  is_read : Bool
  created_at : Nat
  sender_name : String
  receiver_name : String
  deriving Repr, DecidableEq

/-- The message columns of a `get_conversation` output row. -/
def rowMessage (r : ConversationRow) : Message :=
  { id := r.id, sender_id := r.sender_id, receiver_id := r.receiver_id,
    content := r.content, is_read := r.is_read, created_at := r.created_at }

/-- The WHERE clause of `get_conversation` (messaging setup script, lines 70-72). -/
def betweenUsers (user1_id user2_id : Uid) (m : Message) : Bool :=
  (m.sender_id == user1_id && m.receiver_id == user2_id) ||
  (m.sender_id == user2_id && m.receiver_id == user1_id)

/-- The two `user_profiles` JOINs of `get_conversation` (messaging setup
script, lines 67-69): a message contributes one output row per profile row
matching its sender id and per profile row matching its receiver id. -/
def joinNames (ps : List Profile) (m : Message) : List ConversationRow :=
  (ps.filter (fun s => s.id == m.sender_id)).flatMap (fun s =>
    (ps.filter (fun r => r.id == m.receiver_id)).map (fun r =>
      { id := m.id, sender_id := m.sender_id, receiver_id := m.receiver_id,
        content := m.content, is_read := m.is_read, created_at := m.created_at,
        sender_name := s.display_name, receiver_name := r.display_name }))

/-- `ORDER BY m.created_at ASC` comparison. -/
def byCreatedAsc (x y : ConversationRow) : Bool :=
  decide (x.created_at ≤ y.created_at)

/-- `get_conversation(user1_id, user2_id)` (messaging setup script, lines
45-75): filter `messages` to the two directions between the arguments, join
both display names, order by `created_at` ascending. -/
def get_conversation (user1_id user2_id : Uid) (st : Store) : List ConversationRow :=
  orderBy byCreatedAsc
    ((st.messages.filter (betweenUsers user1_id user2_id)).flatMap
      (joinNames st.profiles))

/-- Output row type of `get_user_conversations` (messaging setup script,
lines 79-86).  `last_message` and `last_message_time` come through a LEFT
JOIN LATERAL, hence `Option`. -/
structure ConversationSummary where
  other_user_id : Uid
  other_user_name : String
  other_user_type : String
  last_message : Option String
  last_message_time : Option Nat
  unread_count : Nat
  deriving Repr, DecidableEq

/-- The `conversation_partners` CTE (messaging setup script, lines 89-97):
the DISTINCT other party of every message involving `user_id`. -/
def conversation_partners (user_id : Uid) (msgs : List Message) : List Uid :=
  ((msgs.filter (fun m => m.sender_id == user_id || m.receiver_id == user_id)).map
    (fun m => if m.sender_id == user_id then m.receiver_id else m.sender_id)).dedup

/-- The LATERAL subquery of the `last_messages` CTE (messaging setup script,
lines 106-113): the messages between `user_id` and `other`, ordered by
`created_at` DESC, LIMIT 1. -/
def lastMessageWith (user_id other : Uid) (msgs : List Message) : Option Message :=
  (orderBy (fun x y => decide (y.created_at ≤ x.created_at))
    (msgs.filter (fun m =>
      (m.sender_id == user_id && m.receiver_id == other) ||
      (m.sender_id == other && m.receiver_id == user_id)))).head?

/-- The `unread_counts` CTE (messaging setup script, lines 115-122): rows
with `receiver_id = user_id AND is_read = FALSE`, grouped BY `receiver_id`,
each group keyed by that receiver column (aliased `other_user_id`) with its
row count. -/
def unread_counts (user_id : Uid) (msgs : List Message) : List (Uid × Nat) :=
  let unread := msgs.filter (fun m => m.receiver_id == user_id && m.is_read == false)
  ((unread.map (fun m => m.receiver_id)).dedup).map
    (fun k => (k, (unread.filter (fun m => m.receiver_id == k)).length))

/-- `ORDER BY lm.last_message_time DESC` (PostgreSQL default: NULLS FIRST
for a descending key). -/
def byLastMessageDesc (x y : ConversationSummary) : Bool :=
  match x.last_message_time, y.last_message_time with
  | none, _ => true
  | some _, none => false
  | some a, some b => decide (b ≤ a)

/-- `get_user_conversations(user_id)` (messaging setup script, lines 78-135):
for each distinct partner, inner-join its profile row, attach the lateral
last message, LEFT JOIN the `unread_counts` CTE on the partner id with
COALESCE 0 (the CTE keys are distinct by GROUP BY, so at most one row
matches), and order by last message time descending. -/
def get_user_conversations (user_id : Uid) (st : Store) : List ConversationSummary :=
  orderBy byLastMessageDesc
    ((conversation_partners user_id st.messages).flatMap (fun p =>
      (st.profiles.filter (fun up => up.id == p)).map (fun up =>
        let lm := lastMessageWith user_id p st.messages
        let uc := ((unread_counts user_id st.messages).filter (fun kv => kv.1 == p)).head?
        { other_user_id := p
          other_user_name := up.display_name
          other_user_type := up.user_type
          last_message := lm.map (fun m => m.content)
          last_message_time := lm.map (fun m => m.created_at)
          unread_count := (uc.map (fun kv => kv.2)).getD 0 })))

/-- The RLS SELECT view of `messages` for an authenticated requester
(messaging setup script, lines 27-30): only rows where the requester is
sender or receiver are visible to a direct read. -/
def visibleMessages (requester : Uid) (msgs : List Message) : List Message :=
  msgs.filter (fun m => m.sender_id == requester || m.receiver_id == requester)

/-- The RPC entry point for `get_conversation`.  The function is declared
`SECURITY DEFINER` (messaging setup script, line 75), so its body reads
`messages` with the definer's privileges: the caller's row-level security is
not applied and the requester identity does not enter the query. -/
def rpc_get_conversation (_requester : Uid) (user1_id user2_id : Uid) (st : Store) :
    List ConversationRow :=
  get_conversation user1_id user2_id st

/-- The RPC entry point for `get_user_conversations`, likewise
`SECURITY DEFINER` (messaging setup script, line 135). -/
def rpc_get_user_conversations (_requester : Uid) (user_id : Uid) (st : Store) :
    List ConversationSummary :=
  get_user_conversations user_id st

/-! ## Job board -/

/-- A `jobs` row (job-board setup script, lines 2-18); geocoordinates are
omitted as no claim touches them. -/
structure Job where
  id : Uid
  venue_id : Uid
  title : String
  description : String
  genre : String
  event_date : String
  pay_range : Option String
  requirements : Option String
  contact_info : Option String
  location : String
  status : String
  deriving Repr, DecidableEq

/-- A `job_applications` row (job-board setup script, lines 21-30). -/
structure JobApplication where
  id : Uid
  job_id : Uid
  artist_id : Uid
  message : Option String
  status : String
  deriving Repr, DecidableEq

/-- The duplicate test of the `UNIQUE(job_id, artist_id)` constraint
(job-board setup script, line 29). -/
def samePair (a b : JobApplication) : Bool :=
  a.job_id == b.job_id && a.artist_id == b.artist_id

/-- INSERT into `job_applications`: the RLS WITH CHECK `auth.uid() =
artist_id` (job-board setup script, lines 71-72) and then the
`UNIQUE(job_id, artist_id)` constraint (line 29).  A failing insert is
atomic: the table value is unchanged (the caller keeps `rows`). -/
def insertApplication (requester : Uid) (rows : List JobApplication)
    (a : JobApplication) : Except String (List JobApplication) :=
  if requester ≠ a.artist_id then
    .error "new row violates row-level security policy"
  else if rows.any (samePair a) then
    .error "duplicate key value violates unique constraint"
  else
    .ok (rows ++ [a])

/-- UPDATE of an application status (profile screen,
`handleApplicationStatus`): sets the `status` column of the addressed row;
the RLS USING clause (job-board setup script, lines 74-81) restricts the
rows an UPDATE may touch to those whose job is owned by the requester. -/
def updateApplicationStatus (requester : Uid) (jobsTable : List Job)
    (appId : Uid) (newStatus : String) (rows : List JobApplication) :
    List JobApplication :=
  rows.map (fun r =>
    if r.id == appId &&
       jobsTable.any (fun j => j.id == r.job_id && j.venue_id == requester) then
      { r with status := newStatus }
    else r)

/-- States of the `job_applications` table reachable through the exposed
interface: the empty table, RLS-checked inserts, and venue status updates. -/
inductive AppsReachable : List JobApplication → Prop where
  | empty : AppsReachable []
  | insert (requester : Uid) (a : JobApplication) (rows rows' : List JobApplication) :
      AppsReachable rows → insertApplication requester rows a = .ok rows' →
      AppsReachable rows'
  | update (requester : Uid) (jobsTable : List Job) (appId : Uid)
      (newStatus : String) (rows : List JobApplication) :
      AppsReachable rows →
      AppsReachable (updateApplicationStatus requester jobsTable appId newStatus rows)

/-! ## Requesters and row-level security -/

/-- A request context: anonymous, or an authenticated session
(`auth.role() = 'authenticated'`) carrying `auth.uid()`. -/
inductive Requester where
  | anon
  | auth (uid : Uid)
  deriving Repr, DecidableEq

/-- PostgreSQL DELETE under permissive row-level security: a statement may
remove a row only if some DELETE policy's USING clause passes for it; with
no policy defined, no row qualifies and the statement removes nothing. -/
def rlsDelete {α : Type} (policies : List (Requester → α → Bool))
    (rq : Requester) (targeted : α → Bool) (rows : List α) : List α :=
  rows.filter (fun r => !(targeted r && policies.any (fun pol => pol rq r)))

/-- The DELETE policies declared for `job_applications` (job-board setup
script, lines 58-81): SELECT, INSERT and UPDATE policies are created there,
and no DELETE policy exists anywhere in the repository. -/
def jobApplicationDeletePolicies : List (Requester → JobApplication → Bool) := []

/-- `ON DELETE CASCADE` on `job_applications.job_id` (job-board setup
script, line 23): deleting a job removes its application rows. -/
def cascadeDeleteJobApplications (j : Uid) (rows : List JobApplication) :
    List JobApplication :=
  rows.filter (fun a => !(a.job_id == j))

/-! ## Venues -/

/-- A `venues` row (venue setup script, lines 2-15) after the
`owner_id` migration (supabase_auth_setup.sql, line 43): `owner_id` is
nullable, NULL for rows predating the migration. -/
structure Venue where
  id : Uid
  name : String
  genre : String
  address : String
  latitude : Rat
  longitude : Rat
  description : Option String
  website : Option String
  phone : Option String
  capacity : Option Nat
  owner_id : Option Uid
  deriving Repr, DecidableEq

/-- venues INSERT policy: `auth.role() = 'authenticated'`
(supabase_auth_setup.sql, lines 59-60). -/
def venueInsertAllowed : Requester → Bool
  | .anon => false
  | .auth _ => true

/-- venues UPDATE/DELETE policy USING clause `auth.uid() = owner_id`
(supabase_auth_setup.sql, lines 62-66).  A SQL comparison against a NULL
`owner_id` is not true, so rows with NULL owner never qualify. -/
def venueOwnerAllowed (rq : Requester) (v : Venue) : Bool :=
  match rq, v.owner_id with
  | .auth u, some o => u == o
  | _, _ => false

/-- INSERT into `venues` under the final policies. -/
def insertVenue (rq : Requester) (vs : List Venue) (v : Venue) :
    Except String (List Venue) :=
  if venueInsertAllowed rq then .ok (vs ++ [v])
  else .error "new row violates row-level security policy"

/-- UPDATE of the venue row addressed by `target`: the update function `f`
is applied exactly to the addressed rows whose USING clause passes; all
other rows are left unchanged (RLS filters them out of the statement). -/
def updateVenue (rq : Requester) (target : Uid) (f : Venue → Venue)
    (vs : List Venue) : List Venue :=
  vs.map (fun v => if v.id == target && venueOwnerAllowed rq v then f v else v)

/-- The DELETE policies declared for `venues` (supabase_auth_setup.sql,
lines 65-66). -/
def venueDeletePolicies : List (Requester → Venue → Bool) :=
  [fun rq v => venueOwnerAllowed rq v]

/-- DELETE of the venue row addressed by `target` under the final policies. -/
def deleteVenue (rq : Requester) (target : Uid) (vs : List Venue) : List Venue :=
  rlsDelete venueDeletePolicies rq (fun v => v.id == target) vs

/-- The requester identity matches the row's owner id (the spec's wording
for the venue update/delete contract). -/
def requesterOwns (rq : Requester) (v : Venue) : Prop :=
  ∃ u, rq = .auth u ∧ v.owner_id = some u

/-- The five venues seeded by the venue setup script (lines 36-91).  They
were inserted before the `owner_id` column existed (added by
supabase_auth_setup.sql line 43 with no default), so their `owner_id` is
NULL; row ids are generated, modelled here as 1-5. -/
def seededVenues : List Venue :=
  [ { id := 1, name := "Cat\x27s Cradle", genre := "Indie / Rock",
      address := "300 E Main St, Carrboro, NC",
      latitude := 35.9103, longitude := -79.0473,
      description := some "Legendary indie music venue that has hosted countless iconic bands since 1969. Known for its intimate atmosphere and excellent sound.",
      website := some "https://catscradle.com", phone := some "(919) 967-9053",
      capacity := some 750, owner_id := none },
    { id := 2, name := "Motorco Music Hall", genre := "Rock / Alt",
      address := "723 Rigsbee Ave, Durham, NC",
      latitude := 35.9992, longitude := -78.9083,
      description := some "Modern music venue and bar featuring local and touring acts. Great sound system and intimate setting.",
      website := some "https://motorcomusic.com", phone := some "(919) 901-0875",
      capacity := some 400, owner_id := none },
    { id := 3, name := "DPAC", genre := "Broadway / Pop",
      address := "123 Vivian St, Durham, NC",
      latitude := 35.9961, longitude := -78.9019,
      description := some "Durham Performing Arts Center - premier venue for Broadway shows, concerts, and cultural events.",
      website := some "https://www.dpacnc.com", phone := some "(919) 680-2787",
      capacity := some 2700, owner_id := none },
    { id := 4, name := "The Pinhook", genre := "Indie / Electronic",
      address := "117 W Main St, Durham, NC",
      latitude := 35.9997, longitude := -78.9087,
      description := some "Eclectic venue featuring indie rock, electronic, and experimental music. Known for its diverse lineup and vibrant atmosphere.",
      website := some "https://www.thepinhook.com", phone := some "(919) 667-1100",
      capacity := some 150, owner_id := none },
    { id := 5, name := "Casbah", genre := "Rock / Metal",
      address := "1007 W Main St, Durham, NC",
      latitude := 35.9991, longitude := -78.9089,
      description := some "Intimate venue specializing in rock, metal, and punk shows. Raw, energetic atmosphere perfect for loud music.",
      website := some "https://www.casbahdurham.com", phone := some "(919) 667-3277",
      capacity := some 200, owner_id := none } ]

/-! ## Messaging mutations -/

/-- INSERT into `messages`: the RLS WITH CHECK
`auth.uid() = sender_id AND auth.uid() != receiver_id` (messaging setup
script, lines 33-36).  A failing insert is atomic: no row is added. -/
def insertMessage (requester : Uid) (msgs : List Message) (m : Message) :
    Except String (List Message) :=
  if requester = m.sender_id ∧ requester ≠ m.receiver_id then .ok (msgs ++ [m])
  else .error "new row violates row-level security policy"

/-- The mark-as-read UPDATE issued by the chat screen
(`markMessagesAsRead`): sets `is_read` to true on rows with
`receiver_id = requester AND sender_id = other AND is_read = false`,
gated by the messages UPDATE policy USING clause (messaging setup script,
lines 39-42).  Only the `is_read` column changes. -/
def markMessagesAsRead (requester other : Uid) (msgs : List Message) :
    List Message :=
  msgs.map (fun m =>
    if (m.sender_id == requester || m.receiver_id == requester) &&
       (m.receiver_id == requester && m.sender_id == other && m.is_read == false)
    then { m with is_read := true } else m)

/-- States of the `messages` table reachable through the exposed interface:
the empty table, RLS-checked sends, and mark-as-read updates. -/
inductive MessagesReachable : List Message → Prop where
  | empty : MessagesReachable []
  | send (requester : Uid) (m : Message) (msgs msgs' : List Message) :
      MessagesReachable msgs → insertMessage requester msgs m = .ok msgs' →
      MessagesReachable msgs'
  | markRead (requester other : Uid) (msgs : List Message) :
      MessagesReachable msgs →
      MessagesReachable (markMessagesAsRead requester other msgs)

/-! ## Groups and the two creation screens -/

/-- A `groups` row (group setup script, lines 11-17). -/
structure Group where
  id : Uid
  name : String
  description : Option String
  genre : Option String
  created_by : Uid
  deriving Repr, DecidableEq

/-- Result of a creation screen submission. -/
inductive SubmitOutcome where
  | rejected (msg : String)
  | submitted
  deriving Repr, DecidableEq

/-- `CreateGroupScreen.handleSubmit` (create-group screen, lines 53-82):
requires a logged-in user with a profile, rejects non-artist profiles,
requires a non-empty trimmed name, then inserts the group row with trimmed
fields and empty-string fields stored as NULL.  Every rejection happens
before the insert, leaving the `groups` table unchanged. -/
def createGroup_handleSubmit (user : Option Uid) (profile : Option Profile)
    (name description genre customGenre : String) (groups : List Group)
    (newId : Uid) : SubmitOutcome × List Group :=
  match user, profile with
  | none, _ => (.rejected "You must be logged in to create a group", groups)
  | some _, none => (.rejected "You must be logged in to create a group", groups)
  | some uid, some prof =>
    if prof.user_type ≠ "artist" then
      (.rejected "Only artists can create groups", groups)
    else if name.trim = "" then
      (.rejected "Please enter a group name", groups)
    else
      let finalGenre := if genre = "Other" then customGenre.trim else genre
      (.submitted, groups ++
        [{ id := newId, name := name.trim,
           description := if description.trim = "" then none else some description.trim,
           genre := if finalGenre = "" then none else some finalGenre,
           created_by := uid }])

/-- `PostJobScreen.handleSubmit` (post-job screen, lines 27-71): rejects
unless the user is logged in and their profile's type is "venue", requires
the five mandatory fields non-empty after trimming, then inserts the job
row (status defaults to "open" in the schema).  Every rejection happens
before the insert, leaving the `jobs` table unchanged. -/
def postJob_handleSubmit (user : Option Uid) (profile : Option Profile)
    (title description genre eventDate payRange requirements contactInfo
     location : String) (jobsTable : List Job) (newId : Uid) :
    SubmitOutcome × List Job :=
  match user, profile with
  | none, _ => (.rejected "Only venues can post jobs", jobsTable)
  | some _, none => (.rejected "Only venues can post jobs", jobsTable)
  | some uid, some prof =>
    if prof.user_type ≠ "venue" then
      (.rejected "Only venues can post jobs", jobsTable)
    else if title.trim = "" ∨ description.trim = "" ∨ genre.trim = "" ∨
            eventDate.trim = "" ∨ location.trim = "" then
      (.rejected "Please fill in all required fields", jobsTable)
    else
      (.submitted, jobsTable ++
        [{ id := newId, venue_id := uid, title := title.trim,
           description := description.trim, genre := genre.trim,
           event_date := eventDate,
           pay_range := if payRange.trim = "" then none else some payRange.trim,
           requirements := if requirements.trim = "" then none else some requirements.trim,
           contact_info := if contactInfo.trim = "" then none else some contactInfo.trim,
           location := location.trim, status := "open" }])

/-! ## Account provisioning -/

/-- PostgreSQL `split_part(s, '@', 1)`: the prefix of the string before the
first `'@'`, the whole string when no `'@'` occurs
(supabase_auth_setup.sql, line 77). -/
def splitPartAtSign : List Char → List Char
  | [] => []
  | c :: cs => if c = '@' then [] else c :: splitPartAtSign cs

/-- A freshly inserted `auth.users` row as seen by the signup trigger:
identity, email, and the optional metadata supplied at account creation. -/
structure NewAuthUser where
  id : Uid
  email : String
  meta_user_type : Option String
  meta_display_name : Option String

/-- The body of `handle_new_user` (supabase_auth_setup.sql, lines 69-81):
the profile row inserted for the new identity, with COALESCE defaults
"artist" for the type and `split_part(email, '@', 1)` for the display
name. -/
def handle_new_user (u : NewAuthUser) : Profile :=
  { id := u.id, email := u.email,
    user_type := u.meta_user_type.getD "artist",
    display_name := u.meta_display_name.getD (String.mk (splitPartAtSign u.email.data)) }

/-- Account creation step: inserting the `auth.users` row fires the
`on_auth_user_created` AFTER INSERT trigger (supabase_auth_setup.sql,
lines 84-87) synchronously, so the profile row appears in the same step. -/
def signUpStep (u : NewAuthUser) (profiles : List Profile) : List Profile :=
  profiles ++ [handle_new_user u]

/-! ## Helper lemmas about the ORDER BY sort -/

theorem insertSorted_perm {α : Type} (le : α → α → Bool) (a : α) (l : List α) :
    (insertSorted le a l).Perm (a :: l) := by
  induction l with
  | nil => exact List.Perm.refl _
  | cons b bs ih =>
    rw [insertSorted]
    by_cases h : le a b
    · rw [if_pos h]
    · rw [if_neg h]
      exact (ih.cons b).trans (List.Perm.swap a b bs)

theorem orderBy_perm {α : Type} (le : α → α → Bool) (l : List α) :
    (orderBy le l).Perm l := by
  induction l with
  | nil => exact List.Perm.refl _
  | cons a rest ih =>
    rw [orderBy]
    exact (insertSorted_perm le a (orderBy le rest)).trans (ih.cons a)

theorem pairwise_insertSorted {α : Type} {le : α → α → Bool}
    (htrans : ∀ a b c, le a b = true → le b c = true → le a c = true)
    (htot : ∀ a b, le a b = true ∨ le b a = true) (a : α) {l : List α}
    (hl : l.Pairwise (fun x y => le x y = true)) :
    (insertSorted le a l).Pairwise (fun x y => le x y = true) := by
  induction l with
  | nil => simp [insertSorted]
  | cons b bs ih =>
    rw [List.pairwise_cons] at hl
    obtain ⟨hb, hbs⟩ := hl
    rw [insertSorted]
    by_cases h : le a b
    · rw [if_pos h, List.pairwise_cons]
      refine ⟨?_, List.pairwise_cons.mpr ⟨hb, hbs⟩⟩
      intro x hx
      rcases List.mem_cons.mp hx with rfl | hx
      · exact h
      · exact htrans a b x h (hb x hx)
    · rw [if_neg h, List.pairwise_cons]
      refine ⟨?_, ih hbs⟩
      intro x hx
      have hx' := (insertSorted_perm le a bs).mem_iff.mp hx
      rcases List.mem_cons.mp hx' with rfl | hx'
      · rcases htot x b with hxb | hbx
        · exact absurd hxb h
        · exact hbx
      · exact hb x hx'

theorem pairwise_orderBy {α : Type} {le : α → α → Bool}
    (htrans : ∀ a b c, le a b = true → le b c = true → le a c = true)
    (htot : ∀ a b, le a b = true ∨ le b a = true) (l : List α) :
    (orderBy le l).Pairwise (fun x y => le x y = true) := by
  induction l with
  | nil => simp [orderBy]
  | cons a rest ih => exact pairwise_insertSorted htrans htot a ih

/-! ## Helper lemmas about the profile joins -/

theorem length_filter_id_eq_count (ps : List Profile) (x : Uid) :
    (ps.filter (fun q => q.id == x)).length = (ps.map Profile.id).count x := by
  induction ps with
  | nil => rfl
  | cons p ps ih =>
    by_cases h : p.id = x <;>
      simp [List.count_cons, h, ih, List.filter_cons]

theorem length_filter_id_of_fk {ps : List Profile} {x : Uid}
    (hids : (ps.map Profile.id).Nodup) (hmem : ∃ p ∈ ps, p.id = x) :
    (ps.filter (fun q => q.id == x)).length = 1 := by
  rw [length_filter_id_eq_count]
  obtain ⟨p, hp, rfl⟩ := hmem
  have h1 : 0 < (ps.map Profile.id).count p.id :=
    List.count_pos_iff.mpr (List.mem_map_of_mem Profile.id hp)
  have h2 : (ps.map Profile.id).count p.id ≤ 1 :=
    List.nodup_iff_count_le_one.mp hids p.id
  omega

theorem flatMap_const_replicate {α β : Type} (S : List β) (n : Nat) (m : α) :
    S.flatMap (fun _ => List.replicate n m) = List.replicate (S.length * n) m := by
  induction S with
  | nil => simp
  | cons b bs ih =>
    rw [List.flatMap_cons, ih, ← List.replicate_add]
    congr 1
    simp [Nat.succ_mul, Nat.add_comm]

theorem mapRow_joinNames (ps : List Profile) (m : Message) :
    (joinNames ps m).map rowMessage =
      List.replicate ((ps.filter (fun s => s.id == m.sender_id)).length *
        (ps.filter (fun r => r.id == m.receiver_id)).length) m := by
  rw [joinNames, List.map_flatMap]
  have hinner : ∀ s : Profile,
      ((ps.filter (fun r => r.id == m.receiver_id)).map (fun r =>
        ({ id := m.id, sender_id := m.sender_id, receiver_id := m.receiver_id,
           content := m.content, is_read := m.is_read, created_at := m.created_at,
           sender_name := s.display_name, receiver_name := r.display_name } :
           ConversationRow))).map rowMessage =
        List.replicate (ps.filter (fun r => r.id == m.receiver_id)).length m := by
    intro s
    rw [List.map_map]
    show (ps.filter (fun r => r.id == m.receiver_id)).map (fun _ => m) =
      List.replicate (ps.filter (fun r => r.id == m.receiver_id)).length m
    exact List.map_const' _ m
  calc ((ps.filter (fun s => s.id == m.sender_id)).flatMap fun s =>
          ((ps.filter (fun r => r.id == m.receiver_id)).map _).map rowMessage)
      = (ps.filter (fun s => s.id == m.sender_id)).flatMap (fun _ =>
          List.replicate (ps.filter (fun r => r.id == m.receiver_id)).length m) := by
        refine List.flatMap_congr ?_
        intro s _
        exact hinner s
    _ = _ := flatMap_const_replicate _ _ m

theorem map_rowMessage_flatMap_joinNames {ps : List Profile} (l : List Message)
    (hids : (ps.map Profile.id).Nodup)
    (hfk : ∀ m ∈ l, (∃ p ∈ ps, p.id = m.sender_id) ∧ (∃ p ∈ ps, p.id = m.receiver_id)) :
    (l.flatMap (joinNames ps)).map rowMessage = l := by
  induction l with
  | nil => rfl
  | cons m l ih =>
    rw [List.flatMap_cons, List.map_append, mapRow_joinNames,
      length_filter_id_of_fk hids (hfk m (List.mem_cons_self m l)).1,
      length_filter_id_of_fk hids (hfk m (List.mem_cons_self m l)).2,
      ih (fun m' hm' => hfk m' (List.mem_cons_of_mem m hm'))]
    rfl

/-! ## Concrete fixtures used by witnesses -/

/-- The single message of the demo store: profile 2 writes to profile 1,
still unread. -/
def demoMessage : Message :=
  { id := 100, sender_id := 2, receiver_id := 1, content := "hi",
    is_read := false, created_at := 5 }

/-- A two-profile store with one unread message from profile 2 to
profile 1. -/
def demoStore : Store :=
  { profiles :=
      [ { id := 1, email := "p@example.com", user_type := "artist", display_name := "P" },
        { id := 2, email := "c@example.com", user_type := "artist", display_name := "C" } ],
    messages := [demoMessage] }

/-- An application of artist 2 to job 1, as inserted by the profile
screen's `handleApply`. -/
def demoApplication : JobApplication :=
  { id := 100, job_id := 1, artist_id := 2,
    message := some "I\x27m interested in this opportunity!", status := "pending" }

/-- A second application attempt for the same (job, artist) pair. -/
def demoApplicationRepeat : JobApplication :=
  { id := 101, job_id := 1, artist_id := 2, message := none, status := "pending" }

/-- A venue row with no owner, not among the seeded rows. -/
def demoVenue : Venue :=
  { id := 6, name := "X", genre := "Rock", address := "somewhere",
    latitude := 0, longitude := 0, description := none, website := none,
    phone := none, capacity := none, owner_id := none }

/-! ## Claims -/

/-- C1: the claim states that `get_user_conversations(P)` reports, for each
counterpart C, an `unread_count` equal to the number of unread messages from
C to P.  The code violates this: on the store with a single unread message
from profile 2 to profile 1, `get_user_conversations 1` reports partner 2
with `unread_count = 0` while the actual number of unread messages with
receiver 1 and sender 2 is 1.  The `unread_counts` CTE groups by
`receiver_id`, which its WHERE clause fixes to the calling user, so the
LEFT JOIN on the partner id can never match and COALESCE always yields 0. -/
theorem get_user_conversations_unread_count_bug :
    ((get_user_conversations 1 demoStore).map
      (fun r => (r.other_user_id, r.unread_count)) = [(2, 0)]) ∧
    (demoStore.messages.filter (fun m =>
      m.receiver_id == 1 && m.sender_id == 2 && m.is_read == false)).length = 1 := by
  decide

/-- Mark-as-read only rewrites `is_read`: every row of the updated table has
the sender and receiver of a row of the original table. -/
theorem markMessagesAsRead_fields (requester other : Uid) (msgs : List Message) :
    ∀ m ∈ markMessagesAsRead requester other msgs,
      ∃ m0 ∈ msgs, m.sender_id = m0.sender_id ∧ m.receiver_id = m0.receiver_id := by
  intro m hm
  rw [markMessagesAsRead, List.mem_map] at hm
  obtain ⟨m0, hm0, hEq⟩ := hm
  refine ⟨m0, hm0, ?_⟩
  subst hEq
  split
  · exact ⟨rfl, rfl⟩
  · exact ⟨rfl, rfl⟩

/-- C6: in every reachable state of the `messages` table, every row has
sender distinct from receiver, and an insert whose sender equals its
receiver fails (for every requester) with the RLS error, adding no row. -/
theorem message_sender_ne_receiver (msgs : List Message)
    (h : MessagesReachable msgs) :
    (∀ m ∈ msgs, m.sender_id ≠ m.receiver_id) ∧
    (∀ requester m, m.sender_id = m.receiver_id →
      insertMessage requester msgs m =
        .error "new row violates row-level security policy") := by
  constructor
  · induction h with
    | empty => intro m hm; cases hm
    | send requester m msgs msgs' hr hok ih =>
      rw [insertMessage] at hok
      split at hok
      · rename_i hc
        obtain ⟨hc1, hc2⟩ := hc
        injection hok with h2
        subst h2
        intro x hx
        rcases List.mem_append.mp hx with hx | hx
        · exact ih x hx
        · rcases List.mem_singleton.mp hx with rfl
          intro hcon
          exact hc2 (hc1.trans hcon)
      · simp at hok
    | markRead requester other msgs hr ih =>
      intro x hx
      obtain ⟨m0, hm0, hs, hrcv⟩ := markMessagesAsRead_fields requester other msgs x hx
      rw [hs, hrcv]
      exact ih m0 hm0
  · intro requester m hm
    rw [insertMessage, if_neg]
    rintro ⟨h1, h2⟩
    exact h2 (h1.trans hm)

/-- C6 witness: the demo message is reachable by a send, its sender differs
from its receiver, and a self-addressed insert attempt fails. -/
theorem message_sender_ne_receiver_witness :
    demoMessage.sender_id ≠ demoMessage.receiver_id ∧
    insertMessage 3
      [demoMessage]
      { id := 101, sender_id := 3, receiver_id := 3, content := "me",
        is_read := false, created_at := 6 } =
      .error "new row violates row-level security policy" := by
  obtain ⟨h1, h2⟩ := message_sender_ne_receiver [demoMessage]
    (MessagesReachable.send 2 demoMessage [] [demoMessage]
      MessagesReachable.empty rfl)
  exact ⟨h1 demoMessage (List.mem_singleton.mpr rfl), h2 3 _ rfl⟩

/-- C9: `job_applications` declares no DELETE policy, so under permissive
row-level security every delete request, by any requester and any row
predicate, removes nothing; rows disappear only through the
`ON DELETE CASCADE` of the referenced job (or profile). -/
theorem job_applications_delete_denied (rq : Requester)
    (targeted : JobApplication → Bool) (rows : List JobApplication) (j : Uid) :
    rlsDelete jobApplicationDeletePolicies rq targeted rows = rows ∧
    (∀ a, a ∈ cascadeDeleteJobApplications j rows ↔ a ∈ rows ∧ ¬ a.job_id = j) := by
  constructor
  · rw [rlsDelete]
    simp [jobApplicationDeletePolicies]
  · intro a
    rw [cascadeDeleteJobApplications]
    simp [List.mem_filter]

/-- C9 witness: no requester can delete the demo application row, and the
cascade on its job removes it. -/
theorem job_applications_delete_denied_witness :
    rlsDelete jobApplicationDeletePolicies (.auth 2) (fun r => r.id == 100)
      [demoApplication] = [demoApplication] ∧
    ¬ demoApplication ∈ cascadeDeleteJobApplications 1 [demoApplication] := by
  obtain ⟨h1, h2⟩ := job_applications_delete_denied (.auth 2)
    (fun r => r.id == 100) [demoApplication] 1
  refine ⟨h1, fun hmem => ?_⟩
  exact ((h2 demoApplication).mp hmem).2 rfl

/-- PostgreSQL `split_part` at the `'@'` delimiter, field 1, is the longest
prefix free of `'@'`. -/
theorem splitPartAtSign_eq_takeWhile (cs : List Char) :
    splitPartAtSign cs = cs.takeWhile (fun c => c != '@') := by
  induction cs with
  | nil => rfl
  | cons c cs ih =>
    rw [splitPartAtSign, List.takeWhile_cons]
    by_cases h : c = '@' <;> simp [h, ih]

/-- C8: account creation provisions the profile row in the same step, with
type defaulting to "artist" and display name defaulting to the local part
of the email (the prefix before the first `'@'`) when not supplied. -/
theorem handle_new_user_defaults (u : NewAuthUser) (profiles : List Profile)
    (ht : u.meta_user_type = none) (hd : u.meta_display_name = none) :
    signUpStep u profiles = profiles ++ [handle_new_user u] ∧
    (handle_new_user u).id = u.id ∧
    (handle_new_user u).user_type = "artist" ∧
    (handle_new_user u).display_name =
      String.mk (u.email.data.takeWhile (fun c => c != '@')) := by
  refine ⟨rfl, rfl, ?_, ?_⟩
  · rw [handle_new_user, ht]
    rfl
  · rw [handle_new_user, hd]
    show String.mk (splitPartAtSign u.email.data) = _
    rw [splitPartAtSign_eq_takeWhile]

/-- C8 witness: signing up 42 with email "alice@example.com" and no
metadata yields an artist profile named "alice", provisioned in the same
step. -/
theorem handle_new_user_defaults_witness :
    signUpStep { id := 42, email := "alice@example.com",
                 meta_user_type := none, meta_display_name := none } [] =
      [handle_new_user { id := 42, email := "alice@example.com",
                         meta_user_type := none, meta_display_name := none }] ∧
    (handle_new_user { id := 42, email := "alice@example.com",
                       meta_user_type := none, meta_display_name := none }).user_type
      = "artist" ∧
    (handle_new_user { id := 42, email := "alice@example.com",
                       meta_user_type := none, meta_display_name := none }).display_name
      = "alice" := by
  obtain ⟨h1, h2, h3, h4⟩ := handle_new_user_defaults
    { id := 42, email := "alice@example.com",
      meta_user_type := none, meta_display_name := none } [] rfl rfl
  exact ⟨h1, h3, h4.trans (by decide)⟩

/-- A map whose function leaves a predicate invariant leaves the filter
length invariant. -/
theorem length_filter_map_of_pred_eq {α : Type} (g : α → α) (p : α → Bool)
    (hp : ∀ r, p (g r) = p r) (l : List α) :
    ((l.map g).filter p).length = (l.filter p).length := by
  induction l with
  | nil => rfl
  | cons a l ih =>
    rw [List.map_cons, List.filter_cons, List.filter_cons, hp a]
    cases h : p a <;> simp [h, ih]

/-- C2: in every reachable state of `job_applications`, at most one row per
(job, artist) pair exists; once a row for the pair exists, any further
insert with that pair fails (with the RLS error or the unique-constraint
error), and — the failed statement changing nothing — exactly one row for
the pair remains. -/
theorem job_application_pair_unique (rows : List JobApplication)
    (h : AppsReachable rows) (j ar : Uid) :
    (rows.filter (fun r => r.job_id == j && r.artist_id == ar)).length ≤ 1 ∧
    (∀ requester a, a.job_id = j → a.artist_id = ar →
      (∃ r ∈ rows, r.job_id = j ∧ r.artist_id = ar) →
      (∃ e, insertApplication requester rows a = .error e) ∧
      (rows.filter (fun r => r.job_id == j && r.artist_id == ar)).length = 1) := by
  have hinv : (rows.filter (fun r => r.job_id == j && r.artist_id == ar)).length ≤ 1 := by
    induction h with
    | empty => simp
    | insert requester a rows rows' hr hok ih =>
      rw [insertApplication] at hok
      split at hok
      · simp at hok
      · split at hok
        · simp at hok
        · rename_i hreq hdup
          injection hok with h2
          subst h2
          rw [List.filter_append, List.length_append]
          by_cases hpa : (a.job_id == j && a.artist_id == ar) = true
          · have hnone : rows.filter (fun r => r.job_id == j && r.artist_id == ar) = [] := by
              rw [List.filter_eq_nil_iff]
              intro r hrmem hpr
              apply hdup
              rw [List.any_eq_true]
              refine ⟨r, hrmem, ?_⟩
              have hpr' : r.job_id = j ∧ r.artist_id = ar := by simpa using hpr
              rw [samePair]
              simp only [Bool.and_eq_true, beq_iff_eq] at hpa ⊢
              exact ⟨hpa.1.trans hpr'.1.symm, hpa.2.trans hpr'.2.symm⟩
            rw [hnone]
            simp [hpa]
          · have : ([a].filter (fun r => r.job_id == j && r.artist_id == ar)) = [] := by
              simp [List.filter_cons, hpa]
            rw [this]
            simpa using ih
    | update requester jobsTable appId newStatus rows hr ih =>
      rw [updateApplicationStatus,
        length_filter_map_of_pred_eq _ _ (fun r => by split <;> rfl)]
      exact ih
  refine ⟨hinv, ?_⟩
  rintro requester a haj haa ⟨r, hrmem, hrj, hra⟩
  constructor
  · by_cases hreq : requester = a.artist_id
    · refine ⟨"duplicate key value violates unique constraint", ?_⟩
      rw [insertApplication, if_neg (not_not_intro hreq), if_pos]
      rw [List.any_eq_true]
      refine ⟨r, hrmem, ?_⟩
      rw [samePair]
      simp only [Bool.and_eq_true, beq_iff_eq]
      exact ⟨haj.trans hrj.symm, haa.trans hra.symm⟩
    · exact ⟨"new row violates row-level security policy",
        by rw [insertApplication, if_pos hreq]⟩
  · have hmemf : r ∈ rows.filter (fun r => r.job_id == j && r.artist_id == ar) := by
      rw [List.mem_filter]
      exact ⟨hrmem, by simp [hrj, hra]⟩
    have h1 : 0 < (rows.filter (fun r => r.job_id == j && r.artist_id == ar)).length :=
      List.length_pos.mpr (List.ne_nil_of_mem hmemf)
    omega

/-- C2 witness: after artist 2 applies to job 1, the pair count is at most
one, and the repeat insert attempt fails leaving exactly one row. -/
theorem job_application_pair_unique_witness :
    (([demoApplication].filter (fun r => r.job_id == 1 && r.artist_id == 2)).length ≤ 1) ∧
    (∃ e, insertApplication 2 [demoApplication] demoApplicationRepeat = .error e) ∧
    (([demoApplication].filter (fun r => r.job_id == 1 && r.artist_id == 2)).length = 1) := by
  have h := job_application_pair_unique [demoApplication]
    (AppsReachable.insert 2 demoApplication [] [demoApplication]
      AppsReachable.empty rfl) 1 2
  have h2 := h.2 2 demoApplicationRepeat rfl rfl
    ⟨demoApplication, List.mem_singleton.mpr rfl, rfl, rfl⟩
  exact ⟨h.1, h2.1, h2.2⟩

/-- C4: a submission by a profile of type "venue" on the create-group
screen is rejected with the `groups` table unchanged, and a submission by a
profile of type "artist" on the post-job screen is rejected with the `jobs`
table unchanged (the checks run before any insert is issued). -/
theorem creation_screens_type_gate (user : Option Uid) (prof : Profile)
    (name description genre customGenre title jdesc jgenre eventDate payRange
     requirements contactInfo location : String)
    (groups : List Group) (jobsTable : List Job) (gid jid : Uid) :
    (prof.user_type = "venue" →
      ∃ msg, createGroup_handleSubmit user (some prof) name description genre
        customGenre groups gid = (.rejected msg, groups)) ∧
    (prof.user_type = "artist" →
      ∃ msg, postJob_handleSubmit user (some prof) title jdesc jgenre eventDate
        payRange requirements contactInfo location jobsTable jid =
        (.rejected msg, jobsTable)) := by
  constructor
  · intro hv
    cases user with
    | none => exact ⟨"You must be logged in to create a group", rfl⟩
    | some uid =>
      have hne : prof.user_type ≠ "artist" := by
        rw [hv]
        decide
      exact ⟨"Only artists can create groups",
        by simp only [createGroup_handleSubmit, if_pos hne]⟩
  · intro ha
    cases user with
    | none => exact ⟨"Only venues can post jobs", rfl⟩
    | some uid =>
      have hne : prof.user_type ≠ "venue" := by
        rw [ha]
        decide
      exact ⟨"Only venues can post jobs",
        by simp only [postJob_handleSubmit, if_pos hne]⟩

/-- C4 witness: a concrete venue profile is turned away from group
creation and a concrete artist profile from job posting, tables unchanged. -/
theorem creation_screens_type_gate_witness :
    (∃ msg, createGroup_handleSubmit (some 7)
      (some { id := 7, email := "v@x.com", user_type := "venue", display_name := "V" })
      "Band" "" "" "" [] 50 = (.rejected msg, [])) ∧
    (∃ msg, postJob_handleSubmit (some 8)
      (some { id := 8, email := "a@x.com", user_type := "artist", display_name := "A" })
      "Gig" "d" "Rock" "2025-01-01" "" "" "" "Durham" [] 60 = (.rejected msg, [])) := by
  refine ⟨?_, ?_⟩
  · exact (creation_screens_type_gate (some 7)
      { id := 7, email := "v@x.com", user_type := "venue", display_name := "V" }
      "Band" "" "" "" "Gig" "d" "Rock" "2025-01-01" "" "" "" "Durham" [] [] 50 60).1 rfl
  · exact (creation_screens_type_gate (some 8)
      { id := 8, email := "a@x.com", user_type := "artist", display_name := "A" }
      "Band" "" "" "" "Gig" "d" "Rock" "2025-01-01" "" "" "" "Durham" [] [] 50 60).2 rfl

/-- The venues UPDATE/DELETE policy passes exactly when the requester is an
authenticated session whose uid equals the row's (non-NULL) owner id. -/
theorem venueOwnerAllowed_iff (rq : Requester) (v : Venue) :
    venueOwnerAllowed rq v = true ↔ requesterOwns rq v := by
  cases rq with
  | anon =>
    simp [venueOwnerAllowed, requesterOwns]
  | auth u =>
    cases hv : v.owner_id with
    | none => simp [venueOwnerAllowed, requesterOwns, hv]
    | some o =>
      simp only [venueOwnerAllowed, requesterOwns, hv, beq_iff_eq,
        Requester.auth.injEq, Option.some.inj]
      constructor
      · intro h
        exact ⟨u, rfl, by simp [h]⟩
      · rintro ⟨u', hu', ho⟩
        cases hu'
        cases ho
        rfl

/-- C7: a venue insert succeeds exactly for requesters with a valid
session; an update rewrites a row exactly when it is the addressed row and
the requester's id equals its owner id, leaving every other row unchanged;
a delete removes a row exactly under the same condition. -/
theorem venue_policy_contract (rq : Requester) (v : Venue) (vs : List Venue)
    (target : Uid) (f : Venue → Venue) :
    ((∃ vs', insertVenue rq vs v = .ok vs') ↔ rq ≠ .anon) ∧
    List.Forall₂ (fun w w' =>
      (w.id = target ∧ requesterOwns rq w → w' = f w) ∧
      (¬ (w.id = target ∧ requesterOwns rq w) → w' = w))
      vs (updateVenue rq target f vs) ∧
    (∀ w, w ∈ deleteVenue rq target vs ↔
      w ∈ vs ∧ ¬ (w.id = target ∧ requesterOwns rq w)) := by
  refine ⟨?_, ?_, ?_⟩
  · cases rq with
    | anon => simp [insertVenue, venueInsertAllowed]
    | auth u => simp [insertVenue, venueInsertAllowed]
  · rw [updateVenue]
    induction vs with
    | nil => exact List.Forall₂.nil
    | cons w ws ih =>
      rw [List.map_cons]
      refine List.Forall₂.cons ⟨?_, ?_⟩ ih
      · intro hc
        rw [if_pos]
        simp only [Bool.and_eq_true, beq_iff_eq, venueOwnerAllowed_iff]
        exact hc
      · intro hc
        rw [if_neg]
        intro hb
        apply hc
        simpa only [Bool.and_eq_true, beq_iff_eq, venueOwnerAllowed_iff] using hb
  · intro w
    rw [deleteVenue, rlsDelete, List.mem_filter]
    have hpolicy : venueDeletePolicies.any (fun pol => pol rq w) =
        venueOwnerAllowed rq w := by
      simp [venueDeletePolicies]
    rw [hpolicy]
    constructor
    · rintro ⟨hmem, hpred⟩
      refine ⟨hmem, ?_⟩
      rintro ⟨hid, hown⟩
      rw [hid, (venueOwnerAllowed_iff rq w).mpr hown] at hpred
      simp at hpred
    · rintro ⟨hmem, hno⟩
      refine ⟨hmem, ?_⟩
      by_cases hid : w.id = target
      · cases hb : venueOwnerAllowed rq w
        · simp [hb]
        · exact absurd ⟨hid, (venueOwnerAllowed_iff rq w).mp hb⟩ hno
      · simp [hid]

/-- C7 witness: an authenticated requester may insert, and the unowned demo
venue row survives a delete attempt by that requester. -/
theorem venue_policy_contract_witness :
    (∃ vs', insertVenue (.auth 9) seededVenues demoVenue = .ok vs') ∧
    (demoVenue ∈ deleteVenue (.auth 9) 6 [demoVenue]) := by
  have h := venue_policy_contract (.auth 9) demoVenue [demoVenue] 6 id
  refine ⟨(venue_policy_contract (.auth 9) demoVenue seededVenues 6 id).1.mpr
    (by decide), ?_⟩
  refine (h.2.2 demoVenue).mpr ⟨List.mem_singleton.mpr rfl, ?_⟩
  rintro ⟨-, u, -, hown⟩
  exact Option.noConfusion hown

/-- C10: under the final owner-only policies, every venue row whose
`owner_id` is NULL is never rewritten by any update and never removed by
any delete, whatever the requester; the five seeded legacy venues all have
NULL `owner_id`. -/
theorem unowned_venues_immutable (rq : Requester) (target : Uid)
    (f : Venue → Venue) (vs : List Venue) :
    List.Forall₂ (fun w w' => w.owner_id = none → w' = w)
      vs (updateVenue rq target f vs) ∧
    (∀ w : Venue, w.owner_id = none →
      (deleteVenue rq target vs).count w = vs.count w) ∧
    (∀ w ∈ seededVenues, w.owner_id = none) := by
  have hallow : ∀ w : Venue, w.owner_id = none → venueOwnerAllowed rq w = false := by
    intro w hw
    cases hb : venueOwnerAllowed rq w
    · rfl
    · obtain ⟨u, -, hown⟩ := (venueOwnerAllowed_iff rq w).mp hb
      rw [hw] at hown
      exact Option.noConfusion hown
  refine ⟨?_, ?_, ?_⟩
  · rw [updateVenue]
    induction vs with
    | nil => exact List.Forall₂.nil
    | cons w ws ih =>
      rw [List.map_cons]
      refine List.Forall₂.cons ?_ ih
      intro hw
      rw [if_neg]
      intro hb
      rw [Bool.and_eq_true, hallow w hw] at hb
      exact Bool.false_ne_true hb.2
  · intro w hw
    rw [deleteVenue, rlsDelete]
    induction vs with
    | nil => rfl
    | cons v' ws ih =>
      rw [List.filter_cons]
      by_cases hkeep : (!(v'.id == target &&
          venueDeletePolicies.any (fun pol => pol rq v'))) = true
      · rw [if_pos hkeep, List.count_cons, List.count_cons, ih]
      · rw [if_neg hkeep]
        have hv' : v' ≠ w := by
          intro h
          apply hkeep
          rw [h]
          simp [venueDeletePolicies, hallow w hw]
        rw [List.count_cons, ih, if_neg (fun hbeq => hv' (by simpa using hbeq))]
        simp
  · intro w hw
    simp only [seededVenues, List.mem_cons, List.not_mem_nil, or_false] at hw
    rcases hw with rfl | rfl | rfl | rfl | rfl
    · rfl
    · rfl
    · rfl
    · rfl
    · rfl

/-- C10 witness: against the seeded table, an authenticated non-owner
update leaves each unowned row in place, and a delete attempt does not
change the count of the unowned demo venue. -/
theorem unowned_venues_immutable_witness :
    List.Forall₂ (fun w w' => w.owner_id = none → w' = w) seededVenues
      (updateVenue (.auth 9) 1 id seededVenues) ∧
    (deleteVenue (.auth 9) 6 [demoVenue]).count demoVenue =
      List.count demoVenue [demoVenue] := by
  exact ⟨(unowned_venues_immutable (.auth 9) 1 id seededVenues).1,
    (unowned_venues_immutable (.auth 9) 6 id [demoVenue]).2.1 demoVenue rfl⟩

/-- The `created_at` comparison is transitive. -/
theorem byCreatedAsc_trans (a b c : ConversationRow) :
    byCreatedAsc a b = true → byCreatedAsc b c = true → byCreatedAsc a c = true := by
  simp only [byCreatedAsc, decide_eq_true_eq]
  omega

/-- The `created_at` comparison is total. -/
theorem byCreatedAsc_total (a b : ConversationRow) :
    byCreatedAsc a b = true ∨ byCreatedAsc b a = true := by
  simp only [byCreatedAsc, decide_eq_true_eq]
  omega

/-- The rows `get_conversation` returns are, as messages, a permutation of
the messages between the two arguments, provided profile ids are unique and
every message's parties have profile rows (the schema's PRIMARY KEY and
FOREIGN KEY guarantees). -/
theorem get_conversation_rows_perm (a b : Uid) (st : Store)
    (hids : (st.profiles.map Profile.id).Nodup)
    (hfk : ∀ m ∈ st.messages, (∃ p ∈ st.profiles, p.id = m.sender_id) ∧
      (∃ p ∈ st.profiles, p.id = m.receiver_id)) :
    ((get_conversation a b st).map rowMessage).Perm
      (st.messages.filter (betweenUsers a b)) := by
  rw [get_conversation]
  have h1 := (orderBy_perm byCreatedAsc
    ((st.messages.filter (betweenUsers a b)).flatMap (joinNames st.profiles))).map
    rowMessage
  rw [map_rowMessage_flatMap_joinNames _ hids
    (fun m hm => hfk m (List.mem_filter.mp hm).1)] at h1
  exact h1

/-- The rows `get_conversation` returns are in non-decreasing
`created_at` order. -/
theorem get_conversation_rows_sorted (a b : Uid) (st : Store) :
    (get_conversation a b st).Pairwise (fun x y => x.created_at ≤ y.created_at) := by
  rw [get_conversation]
  exact (pairwise_orderBy byCreatedAsc_trans byCreatedAsc_total _).imp
    (fun h => by simpa [byCreatedAsc] using h)

/-- C5: `get_conversation(A, B)` returns exactly the message rows whose
(sender, receiver) pair is (A, B) or (B, A) — its WHERE clause is that
predicate, no qualifying row is dropped and no other row appears — and the
returned rows are ordered by `created_at` non-decreasingly.  Hypotheses:
profile ids are unique and both parties of every message have a profile row
(PRIMARY KEY and FOREIGN KEY guarantees of the schema). -/
theorem get_conversation_exact_and_ordered (a b : Uid) (st : Store)
    (hids : (st.profiles.map Profile.id).Nodup)
    (hfk : ∀ m ∈ st.messages, (∃ p ∈ st.profiles, p.id = m.sender_id) ∧
      (∃ p ∈ st.profiles, p.id = m.receiver_id)) :
    (∀ m : Message, betweenUsers a b m = true ↔
      ((m.sender_id = a ∧ m.receiver_id = b) ∨
       (m.sender_id = b ∧ m.receiver_id = a))) ∧
    ((get_conversation a b st).map rowMessage).Perm
      (st.messages.filter (betweenUsers a b)) ∧
    (get_conversation a b st).Pairwise
      (fun x y => x.created_at ≤ y.created_at) := by
  refine ⟨?_, get_conversation_rows_perm a b st hids hfk,
    get_conversation_rows_sorted a b st⟩
  intro m
  rw [betweenUsers]
  simp [Bool.or_eq_true, Bool.and_eq_true]

/-- C5 witness: on the demo store the returned thread is exactly its single
message, sorted. -/
theorem get_conversation_exact_and_ordered_witness :
    (betweenUsers 1 2 demoMessage = true ↔
      ((demoMessage.sender_id = 1 ∧ demoMessage.receiver_id = 2) ∨
       (demoMessage.sender_id = 2 ∧ demoMessage.receiver_id = 1))) ∧
    ((get_conversation 1 2 demoStore).map rowMessage).Perm
      (demoStore.messages.filter (betweenUsers 1 2)) ∧
    (get_conversation 1 2 demoStore).Pairwise
      (fun x y => x.created_at ≤ y.created_at) := by
  obtain ⟨h1, h2, h3⟩ := get_conversation_exact_and_ordered 1 2 demoStore
    (by decide) (by decide)
  exact ⟨h1 demoMessage, h2, h3⟩

/-- C3: both conversation procedures run as SECURITY DEFINER, so two
requesters always receive identical results for the same arguments and
store; a requester who is neither party cannot see any of the thread's
rows by a direct (RLS-filtered) read of `messages`, yet through the RPC
obtains the full thread. -/
theorem rpc_requester_independent (st : Store) (r1 r2 a b p : Uid) :
    rpc_get_conversation r1 a b st = rpc_get_conversation r2 a b st ∧
    rpc_get_user_conversations r1 p st = rpc_get_user_conversations r2 p st ∧
    (∀ c, c ≠ a → c ≠ b → ∀ m ∈ st.messages, betweenUsers a b m = true →
      m ∉ visibleMessages c st.messages) ∧
    ((st.profiles.map Profile.id).Nodup →
     (∀ m ∈ st.messages, (∃ q ∈ st.profiles, q.id = m.sender_id) ∧
        (∃ q ∈ st.profiles, q.id = m.receiver_id)) →
     ∀ c, ((rpc_get_conversation c a b st).map rowMessage).Perm
        (st.messages.filter (betweenUsers a b))) := by
  refine ⟨rfl, rfl, ?_, ?_⟩
  · intro c hca hcb m hm hbet hvm
    rw [visibleMessages, List.mem_filter] at hvm
    obtain ⟨-, hpred⟩ := hvm
    rw [betweenUsers] at hbet
    simp only [Bool.or_eq_true, Bool.and_eq_true, beq_iff_eq] at hbet hpred
    rcases hbet with ⟨hs, hr⟩ | ⟨hs, hr⟩ <;> rcases hpred with h | h
    · exact hca (h.symm.trans hs)
    · exact hcb (h.symm.trans hr)
    · exact hcb (h.symm.trans hs)
    · exact hca (h.symm.trans hr)
  · intro hids hfk c
    exact get_conversation_rows_perm a b st hids hfk

/-- C3 witness: two unrelated requesters 7 and 8 get identical results on
the demo store; outsider 9 sees nothing of the thread directly yet gets the
full thread from the RPC. -/
theorem rpc_requester_independent_witness :
    rpc_get_conversation 7 1 2 demoStore = rpc_get_conversation 8 1 2 demoStore ∧
    rpc_get_user_conversations 7 1 demoStore =
      rpc_get_user_conversations 8 1 demoStore ∧
    demoMessage ∉ visibleMessages 9 demoStore.messages ∧
    ((rpc_get_conversation 9 1 2 demoStore).map rowMessage).Perm
      (demoStore.messages.filter (betweenUsers 1 2)) := by
  obtain ⟨h1, h2, h3, h4⟩ := rpc_requester_independent demoStore 7 8 1 2 1
  exact ⟨h1, h2,
    h3 9 (by decide) (by decide) demoMessage (List.mem_singleton.mpr rfl) (by decide),
    h4 (by decide) (by decide) 9⟩

end MusicApp
